import Mathlib

/-!
# Verification of the zero-shot-replication harness

A shallow embedding of `zero_shot_replication/runner.py` and
`zero_shot_replication/model/hugging_face_model/wizard_model.py`, together with
theorems settling the specification claims about them.

JSON result records are modelled as association lists from string keys to
string values; the dataset, the LLM provider and the code extractor are
modelled as explicit function parameters (`Env`), with exceptions modelled by
`Except`.  The on-disk results file is modelled as `Option (List Obj)`
(`none` = the file does not exist).  Effects that the claims observe
(provider invocations, constructed-but-dropped error records) are recorded in
ghost fields of the run state.
-/

/-- A JSON object (one results-file record), modelled as an association list
from string keys to string values.  Python dict semantics: `setKey` replaces
the value in place when the key is present and appends otherwise. -/
abbrev Obj := List (String × String)

/-- Lookup of a key in a record (Python `result[key]` / `key in result`). -/
def lookupKey : Obj → String → Option String
  | [], _ => none
  | (k, v) :: rest, key => if k = key then some v else lookupKey rest key

/-- Python dict update `{**o, key: v}` restricted to one key: replace in place
when present, append otherwise. -/
def setKey : Obj → String → String → Obj
  | [], key, v => [(key, v)]
  | (k, w) :: rest, key, v =>
      if k = key then (key, v) :: rest else (k, w) :: setKey rest key v

/-- The records a results file holds (`none`, i.e. an absent file, holds none). -/
def fileRecords (file : Option (List Obj)) : List Obj := file.getD []

/-- Modelled from the spec: `load_existing_jsonl` lives in
`zero_shot_replication.core.utils`, which is not under `src/`.  Per spec §4.4
it returns the empty sequence when the file does not exist and the parsed
records otherwise (records are modelled already parsed). -/
def load_existing_jsonl (file : Option (List Obj)) : List Obj := fileRecords file

/-- Modelled from the spec: `write_jsonl` comes from the external `evalplus`
package.  Per spec §4.4 it serializes the full sequence, overwriting the
file. -/
def write_jsonl (results : List Obj) : Option (List Obj) := some results

/-- The set comprehension
`{result["task_id"] for result in results if "task_id" in result}`
from `runner.py` (membership is what the loop consults). -/
def exising_task_ids (results : List Obj) : List String :=
  results.filterMap (fun r => lookupKey r "task_id")

/-- The problem-set names for which `runner.py` routes the raw completion
through `extract_code`. -/
def codegen_psets : List String := ["human-eval", "leetcode", "leetcode-msft-sparks"]

/-- The result dict `{**problem, "task_id": t, "completion": c,
"raw_completion": r, "actual_prompt": p}` assembled in `runner.py`. -/
def build_result (problem : Obj) (task_id completion raw_completion prompt : String) : Obj :=
  setKey (setKey (setKey (setKey problem "task_id" task_id)
    "completion" completion) "raw_completion" raw_completion) "actual_prompt" prompt

/-- The error record built in the `except` handler of `runner.py`: both
`completion` and `raw_completion` hold the sentinel string. -/
def error_result (problem : Obj) (task_id prompt : String) : Obj :=
  build_result problem task_id "Error encountered" "Error encountered" prompt

/-- The external collaborators of the runner loop: the provider's prompt
formatter and completion call (which may raise, modelled by `Except`) and the
code extractor (inside the `try` block, so it may raise too). -/
structure Env where
  get_formatted_prompt : Obj → Except String String
  get_completion : String → Except String String
  extract_code : String → Except String String

/-- The runner's mutable state: the in-memory `results` sequence, the on-disk
file, plus two ghost traces the claims observe: the task ids for which
`get_completion` was invoked, and the error records constructed in the
`except` handler (which the source never appends to `results`). -/
structure RunState where
  results : List Obj
  file : Option (List Obj)
  calls : List String
  error_results : List Obj

/-- One non-skipped iteration of the loop in `runner.py`.
`get_formatted_prompt` is evaluated outside the `try` block, so its exception
propagates (`Except.error`); exceptions of `get_completion` and
`extract_code` are caught by the handler, which constructs an error record
without appending it.  `write_jsonl` runs after the `try`/`except`, writing
the full `results` sequence. -/
def run_task (env : Env) (pset : String) (task_id : String) (problem : Obj)
    (st : RunState) : Except String RunState :=
  match env.get_formatted_prompt problem with
  | Except.error e => Except.error e
  | Except.ok prompt =>
    match env.get_completion prompt with
    | Except.error _ =>
        Except.ok { st with
          calls := st.calls ++ [task_id]
          error_results := st.error_results ++ [error_result problem task_id prompt]
          file := write_jsonl st.results }
    | Except.ok raw_completion =>
      match (if codegen_psets.contains pset then env.extract_code raw_completion
             else Except.ok raw_completion) with
      | Except.error _ =>
          Except.ok { st with
            calls := st.calls ++ [task_id]
            error_results := st.error_results ++ [error_result problem task_id prompt]
            file := write_jsonl st.results }
      | Except.ok completion =>
          Except.ok { st with
            calls := st.calls ++ [task_id]
            results := st.results
              ++ [build_result problem task_id completion raw_completion prompt]
            file := write_jsonl (st.results
              ++ [build_result problem task_id completion raw_completion prompt]) }

/-- The `for task_id, problem in dataset.generator` loop of `runner.py`.
Tasks whose id is in `ids` are skipped (`continue`).  The returned boolean is
the process outcome: `true` = normal termination (exit status 0), `false` =
an uncaught exception aborted the batch, leaving the state as it was when the
exception was raised. -/
def run_loop (env : Env) (pset : String) (ids : List String)
    (tasks : List (String × Obj)) (st : RunState) : RunState × Bool :=
  match tasks with
  | [] => (st, true)
  | (task_id, problem) :: rest =>
    if ids.contains task_id then run_loop env pset ids rest st
    else
      match run_task env pset task_id problem st with
      | Except.error _ => (st, false)
      | Except.ok st2 => run_loop env pset ids rest st2

/-- The `__main__` flow of `runner.py` after setup: load existing results,
compute the skip set, run the loop. -/
def run_main (env : Env) (pset : String) (tasks : List (String × Obj))
    (file0 : Option (List Obj)) : RunState × Bool :=
  let results := load_existing_jsonl file0
  let ids := exising_task_ids results
  run_loop env pset ids tasks
    { results := results, file := file0, calls := [], error_results := [] }

/-! ## Basic lemmas about records -/

theorem lookupKey_setKey_self (o : Obj) (k v : String) :
    lookupKey (setKey o k v) k = some v := by
  induction o with
  | nil => simp [setKey, lookupKey]
  | cons p rest ih =>
      by_cases h : p.1 = k
      · simp [setKey, h, lookupKey]
      · simp [setKey, h, lookupKey, ih]

theorem lookupKey_setKey_ne (o : Obj) (k v k' : String) (h : k' ≠ k) :
    lookupKey (setKey o k v) k' = lookupKey o k' := by
  induction o with
  | nil => simp [setKey, lookupKey, Ne.symm h]
  | cons p rest ih =>
      obtain ⟨a, b⟩ := p
      by_cases hk : a = k
      · subst hk
        simp [setKey, lookupKey, h, Ne.symm h]
      · simp [setKey, hk, lookupKey, ih]

theorem build_result_completion (problem : Obj) (t c r p : String) :
    lookupKey (build_result problem t c r p) "completion" = some c := by
  unfold build_result
  rw [lookupKey_setKey_ne _ _ _ _ (by decide),
      lookupKey_setKey_ne _ _ _ _ (by decide),
      lookupKey_setKey_self]

theorem build_result_raw_completion (problem : Obj) (t c r p : String) :
    lookupKey (build_result problem t c r p) "raw_completion" = some r := by
  unfold build_result
  rw [lookupKey_setKey_ne _ _ _ _ (by decide), lookupKey_setKey_self]

theorem build_result_task_id (problem : Obj) (t c r p : String) :
    lookupKey (build_result problem t c r p) "task_id" = some t := by
  unfold build_result
  rw [lookupKey_setKey_ne _ _ _ _ (by decide),
      lookupKey_setKey_ne _ _ _ _ (by decide),
      lookupKey_setKey_ne _ _ _ _ (by decide),
      lookupKey_setKey_self]

/-! ## Per-task lemmas -/

theorem run_task_error_prompt (env : Env) (pset task_id : String) (problem : Obj)
    (st : RunState) (e : String)
    (h : run_task env pset task_id problem st = Except.error e) :
    env.get_formatted_prompt problem = Except.error e := by
  cases hp : env.get_formatted_prompt problem with
  | error e' =>
      simp only [run_task, hp, Except.error.injEq] at h
      rw [h]
  | ok prompt =>
      simp only [run_task, hp] at h
      cases hc : env.get_completion prompt with
      | error e' => simp only [hc] at h; exact Except.noConfusion h
      | ok raw =>
        simp only [hc] at h
        cases hx : (if codegen_psets.contains pset then env.extract_code raw
                    else Except.ok raw) with
        | error e' => simp only [hx] at h; exact Except.noConfusion h
        | ok c => simp only [hx] at h; exact Except.noConfusion h

theorem run_task_ok_shape (env : Env) (pset task_id : String) (problem : Obj)
    (st st2 : RunState) (h : run_task env pset task_id problem st = Except.ok st2) :
    st2.calls = st.calls ++ [task_id]
    ∧ (st2.results = st.results ∨ ∃ r, st2.results = st.results ++ [r])
    ∧ st2.file = some st2.results := by
  cases hp : env.get_formatted_prompt problem with
  | error e =>
      simp only [run_task, hp] at h
      exact Except.noConfusion h
  | ok prompt =>
      simp only [run_task, hp] at h
      cases hc : env.get_completion prompt with
      | error e =>
        simp only [hc, Except.ok.injEq] at h
        cases h
        exact ⟨rfl, Or.inl rfl, rfl⟩
      | ok raw =>
        simp only [hc] at h
        cases hx : (if codegen_psets.contains pset then env.extract_code raw
                    else Except.ok raw) with
        | error e =>
          simp only [hx, Except.ok.injEq] at h
          cases h
          exact ⟨rfl, Or.inl rfl, rfl⟩
        | ok c =>
          simp only [hx, Except.ok.injEq] at h
          cases h
          exact ⟨rfl, Or.inr ⟨_, rfl⟩, rfl⟩

theorem run_task_prompt_ok (env : Env) (pset task_id : String) (problem : Obj)
    (st : RunState) (prompt : String)
    (hp : env.get_formatted_prompt problem = Except.ok prompt) :
    ∃ st2, run_task env pset task_id problem st = Except.ok st2 := by
  cases h : run_task env pset task_id problem st with
  | ok st2 => exact ⟨st2, rfl⟩
  | error e =>
    have h2 := run_task_error_prompt env pset task_id problem st e h
    rw [hp] at h2
    exact Except.noConfusion h2

/-! ## Loop invariants -/

theorem run_loop_results_extend (env : Env) (pset : String) (ids : List String)
    (tasks : List (String × Obj)) :
    ∀ st : RunState, ∃ rest,
      (run_loop env pset ids tasks st).1.results = st.results ++ rest := by
  induction tasks with
  | nil => intro st; exact ⟨[], by simp [run_loop]⟩
  | cons t rest ih =>
    intro st
    obtain ⟨tid, prob⟩ := t
    by_cases hs : tid ∈ ids
    · simpa [run_loop, hs] using ih st
    · cases hr : run_task env pset tid prob st with
      | error e => exact ⟨[], by simp [run_loop, hs, hr]⟩
      | ok st2 =>
        obtain ⟨r1, hr1⟩ := ih st2
        rcases (run_task_ok_shape env pset tid prob st st2 hr).2.1 with h2 | ⟨r, h2⟩
        · exact ⟨r1, by simp [run_loop, hs, hr, hr1, h2]⟩
        · exact ⟨[r] ++ r1, by simp [run_loop, hs, hr, hr1, h2]⟩

theorem run_loop_file_inv (env : Env) (pset : String) (ids : List String)
    (tasks : List (String × Obj)) :
    ∀ st : RunState, fileRecords st.file = st.results →
      fileRecords (run_loop env pset ids tasks st).1.file
        = (run_loop env pset ids tasks st).1.results := by
  induction tasks with
  | nil => intro st h; simpa [run_loop] using h
  | cons t rest ih =>
    intro st h
    obtain ⟨tid, prob⟩ := t
    by_cases hs : tid ∈ ids
    · simpa [run_loop, hs] using ih st h
    · cases hr : run_task env pset tid prob st with
      | error e => simpa [run_loop, hs, hr] using h
      | ok st2 =>
        have hfile := (run_task_ok_shape env pset tid prob st st2 hr).2.2
        have h2 : fileRecords st2.file = st2.results := by
          rw [hfile]; rfl
        simpa [run_loop, hs, hr] using ih st2 h2

theorem run_loop_calls_skip (env : Env) (pset : String) (ids : List String)
    (tasks : List (String × Obj)) :
    ∀ st : RunState, ∀ tid : String, tid ∈ ids →
      tid ∈ (run_loop env pset ids tasks st).1.calls → tid ∈ st.calls := by
  induction tasks with
  | nil => intro st tid _ h; simpa [run_loop] using h
  | cons t rest ih =>
    intro st tid hmem h
    obtain ⟨tid', prob⟩ := t
    by_cases hs : tid' ∈ ids
    · simp only [run_loop, hs, List.elem_iff.mpr hs, if_true] at h
      exact ih st tid hmem h
    · have hs' : ids.contains tid' = false := by
        cases hcontains : ids.contains tid' with
        | false => rfl
        | true => exact absurd (List.elem_iff.mp hcontains) hs
      rw [run_loop] at h
      simp only [hs', Bool.false_eq_true, if_false] at h
      cases hr : run_task env pset tid' prob st with
      | error e =>
        rw [hr] at h
        exact h
      | ok st2 =>
        rw [hr] at h
        have h2 := ih st2 tid hmem h
        rw [(run_task_ok_shape env pset tid' prob st st2 hr).1] at h2
        rcases List.mem_append.mp h2 with h3 | h3
        · exact h3
        · exfalso
          have h4 : tid = tid' := by simpa using h3
          exact hs (h4 ▸ hmem)

theorem run_loop_all_prompts_ok (env : Env) (pset : String) (ids : List String)
    (tasks : List (String × Obj))
    (hp : ∀ problem : Obj, ∃ s, env.get_formatted_prompt problem = Except.ok s) :
    ∀ st : RunState,
      (run_loop env pset ids tasks st).2 = true
      ∧ (run_loop env pset ids tasks st).1.calls
          = st.calls ++ (tasks.filter (fun t => !(ids.contains t.1))).map Prod.fst := by
  induction tasks with
  | nil => intro st; simp [run_loop]
  | cons t rest ih =>
    intro st
    obtain ⟨tid, prob⟩ := t
    by_cases hs : tid ∈ ids
    · have := ih st
      simpa [run_loop, hs, List.filter_cons] using this
    · obtain ⟨prompt, hprompt⟩ := hp prob
      obtain ⟨st2, hr⟩ := run_task_prompt_ok env pset tid prob st prompt hprompt
      have hcalls := (run_task_ok_shape env pset tid prob st st2 hr).1
      have hrest := ih st2
      constructor
      · simpa [run_loop, hs, hr] using hrest.1
      · have : (run_loop env pset ids ((tid, prob) :: rest) st)
            = run_loop env pset ids rest st2 := by
          simp [run_loop, hs, hr]
        rw [this, hrest.2, hcalls]
        simp [List.filter_cons, hs]

/-! ## Concrete environments used by witnesses and counterexamples -/

/-- A provider/extractor environment in which every step succeeds. -/
def env_trivial : Env where
  get_formatted_prompt := fun _ => Except.ok "prompt"
  get_completion := fun _ => Except.ok "completion"
  extract_code := fun s => Except.ok s

/-- An environment whose completion call always raises. -/
def env_completion_raises : Env where
  get_formatted_prompt := fun _ => Except.ok "prompt"
  get_completion := fun _ => Except.error "boom"
  extract_code := fun s => Except.ok s

/-- An environment whose prompt formatter always raises. -/
def env_prompt_raises : Env where
  get_formatted_prompt := fun _ => Except.error "boom"
  get_completion := fun _ => Except.ok "completion"
  extract_code := fun s => Except.ok s

/-- An environment whose extractor returns a string different from the raw
completion. -/
def env_extracts : Env where
  get_formatted_prompt := fun _ => Except.ok "prompt"
  get_completion := fun _ => Except.ok "raw output"
  extract_code := fun _ => Except.ok "code"

/-! ## Claim C1 -/

/-- C1: Resume idempotence.  Every dataset task whose task_id appears among
the loaded records that carry a `task_id` field is skipped without any
`get_completion` call, and the loaded records remain present unchanged, as a
prefix, both in the final in-memory sequence and in the records of the final
file (so the final file is a superset of the original records). -/
theorem C1_resume_idempotence (env : Env) (pset : String)
    (tasks : List (String × Obj)) (L : List Obj) :
    (∀ tid problem, (tid, problem) ∈ tasks → tid ∈ exising_task_ids L →
        tid ∉ (run_main env pset tasks (some L)).1.calls)
    ∧ (∃ new, (run_main env pset tasks (some L)).1.results = L ++ new)
    ∧ (∃ new, fileRecords (run_main env pset tasks (some L)).1.file = L ++ new) := by
  have hmain : run_main env pset tasks (some L)
      = run_loop env pset (exising_task_ids L) tasks
          { results := L, file := some L, calls := [], error_results := [] } := rfl
  refine ⟨?_, ?_, ?_⟩
  · intro tid problem _ hmem hcall
    rw [hmain] at hcall
    have h := run_loop_calls_skip env pset (exising_task_ids L) tasks
      { results := L, file := some L, calls := [], error_results := [] } tid hmem hcall
    simp at h
  · rw [hmain]
    exact run_loop_results_extend env pset (exising_task_ids L) tasks
      { results := L, file := some L, calls := [], error_results := [] }
  · rw [hmain]
    obtain ⟨new, hres⟩ := run_loop_results_extend env pset (exising_task_ids L) tasks
      { results := L, file := some L, calls := [], error_results := [] }
    have hfile := run_loop_file_inv env pset (exising_task_ids L) tasks
      { results := L, file := some L, calls := [], error_results := [] } rfl
    exact ⟨new, by rw [hfile, hres]⟩

/-- Witness for C1 at a concrete input: with one loaded record for `t1` and a
dataset re-offering `t1`, no provider call is made for `t1`. -/
theorem C1_resume_idempotence_witness :
    (("t1", ([] : Obj)) ∈ [("t1", ([] : Obj))])
    ∧ "t1" ∈ exising_task_ids [[("task_id", "t1")]]
    ∧ "t1" ∉ (run_main env_trivial "human-eval" [("t1", ([] : Obj))]
        (some [[("task_id", "t1")]])).1.calls :=
  ⟨by decide, by decide,
    (C1_resume_idempotence env_trivial "human-eval" [("t1", ([] : Obj))]
      [[("task_id", "t1")]]).1 "t1" [] (by decide) (by decide)⟩

/-! ## Claim C2 -/

/-- C2: Atomicity on per-task failure.  When the completion call (or, on a
codegen problem set, the extraction) raises, an error record with
`completion` and `raw_completion` equal to `"Error encountered"` is
constructed but never appended to `results`: the in-memory sequence is
unchanged and the file written after the failed task holds exactly the
records it held before. -/
theorem C2_failure_atomicity (env : Env) (pset task_id : String) (problem : Obj)
    (st : RunState) (prompt : String)
    (hp : env.get_formatted_prompt problem = Except.ok prompt)
    (hcons : fileRecords st.file = st.results)
    (hfail : (∃ e, env.get_completion prompt = Except.error e)
      ∨ (∃ raw e, env.get_completion prompt = Except.ok raw
          ∧ codegen_psets.contains pset = true
          ∧ env.extract_code raw = Except.error e)) :
    ∃ st2, run_task env pset task_id problem st = Except.ok st2
      ∧ st2.results = st.results
      ∧ fileRecords st2.file = fileRecords st.file
      ∧ st2.error_results = st.error_results ++ [error_result problem task_id prompt]
      ∧ lookupKey (error_result problem task_id prompt) "completion"
          = some "Error encountered"
      ∧ lookupKey (error_result problem task_id prompt) "raw_completion"
          = some "Error encountered"
      ∧ (error_result problem task_id prompt ∉ st.results →
          error_result problem task_id prompt ∉ st2.results) := by
  have hfields :
      lookupKey (error_result problem task_id prompt) "completion"
          = some "Error encountered"
      ∧ lookupKey (error_result problem task_id prompt) "raw_completion"
          = some "Error encountered" :=
    ⟨build_result_completion problem task_id "Error encountered" "Error encountered" prompt,
     build_result_raw_completion problem task_id "Error encountered" "Error encountered" prompt⟩
  rcases hfail with ⟨e, hc⟩ | ⟨raw, e, hc, hcg, hx⟩
  · have heq : run_task env pset task_id problem st
        = Except.ok { st with
            calls := st.calls ++ [task_id]
            error_results := st.error_results ++ [error_result problem task_id prompt]
            file := write_jsonl st.results } := by
      simp [run_task, hp, hc]
    refine ⟨_, heq, rfl, ?_, rfl, hfields.1, hfields.2, fun hnot => hnot⟩
    rw [hcons]; rfl
  · have heq : run_task env pset task_id problem st
        = Except.ok { st with
            calls := st.calls ++ [task_id]
            error_results := st.error_results ++ [error_result problem task_id prompt]
            file := write_jsonl st.results } := by
      simp [run_task, hp, hc, List.elem_iff.mp hcg, hx]
    refine ⟨_, heq, rfl, ?_, rfl, hfields.1, hfields.2, fun hnot => hnot⟩
    rw [hcons]; rfl

/-- Witness for C2 at a concrete input: a failing completion call leaves the
(empty) results and file unchanged and records the sentinel fields. -/
theorem C2_failure_atomicity_witness :
    ∃ st2, run_task env_completion_raises "human-eval" "t1" []
        { results := [], file := some [], calls := [], error_results := [] }
        = Except.ok st2
      ∧ st2.results = []
      ∧ fileRecords st2.file = []
      ∧ lookupKey (error_result [] "t1" "prompt") "completion"
          = some "Error encountered" := by
  obtain ⟨st2, h1, h2, h3, _, h5, _, _⟩ :=
    C2_failure_atomicity env_completion_raises "human-eval" "t1" []
      { results := [], file := some [], calls := [], error_results := [] }
      "prompt" rfl rfl (Or.inl ⟨"boom", rfl⟩)
  exact ⟨st2, h1, h2, by simpa using h3, h5⟩

/-! ## Claim C3 -/

/-- C3 counterexample: the claim says any exception raised while building the
prompt or obtaining the completion is caught and the batch continues; but
`get_formatted_prompt` is evaluated outside the `try` block, so a
prompt-building exception aborts the whole batch: with two tasks and a
formatter that raises, the process does not terminate normally and no
completion call is ever made (the second task is never reached). -/
theorem C3_counterexample :
    (run_main env_prompt_raises "human-eval" [("t1", ([] : Obj)), ("t2", ([] : Obj))] none).2
        = false
    ∧ (run_main env_prompt_raises "human-eval" [("t1", ([] : Obj)), ("t2", ([] : Obj))] none).1.calls
        = [] :=
  ⟨rfl, rfl⟩

/-- C3 (amended): exceptions raised while obtaining the completion or
extracting code are caught inside the loop and converted per task, and the
batch then continues to the next task_id with no retry: whenever every
prompt-building step succeeds, the run terminates normally — whatever the
completion call and the extractor do — and `get_completion` is attempted
exactly once for each non-skipped task, in dataset order.  (An exception in
`get_formatted_prompt` itself is not caught and aborts the batch.) -/
theorem C3_failure_containment_amended (env : Env) (pset : String)
    (tasks : List (String × Obj)) (file0 : Option (List Obj))
    (hp : ∀ problem : Obj, ∃ s, env.get_formatted_prompt problem = Except.ok s) :
    (run_main env pset tasks file0).2 = true
    ∧ (run_main env pset tasks file0).1.calls
        = (tasks.filter
            (fun t => !((exising_task_ids (load_existing_jsonl file0)).contains t.1))).map
            Prod.fst := by
  have h := run_loop_all_prompts_ok env pset
    (exising_task_ids (load_existing_jsonl file0)) tasks hp
    { results := load_existing_jsonl file0, file := file0, calls := [],
      error_results := [] }
  exact ⟨h.1, by simpa using h.2⟩

/-- Witness for the amended C3: with a completion call that always raises,
a two-task batch still terminates normally and each task is attempted exactly
once. -/
theorem C3_failure_containment_amended_witness :
    (run_main env_completion_raises "human-eval"
        [("t1", ([] : Obj)), ("t2", ([] : Obj))] none).2 = true
    ∧ (run_main env_completion_raises "human-eval"
        [("t1", ([] : Obj)), ("t2", ([] : Obj))] none).1.calls = ["t1", "t2"] := by
  have h := C3_failure_containment_amended env_completion_raises "human-eval"
    [("t1", ([] : Obj)), ("t2", ([] : Obj))] none (fun _ => ⟨"prompt", rfl⟩)
  refine ⟨h.1, ?_⟩
  rw [h.2]
  rfl

/-! ## Claim C4 -/

/-- C4: Extraction gating.  On a successful task, the record appended to
`results` stores `extract_code raw_completion` in `completion` when the
problem-set name is one of `human-eval`, `leetcode`, `leetcode-msft-sparks`,
and the raw completion verbatim for every other problem-set name, while
`raw_completion` always holds the unmodified provider output. -/
theorem C4_extraction_gating (env : Env) (pset task_id : String) (problem : Obj)
    (st : RunState) (prompt raw ex : String)
    (hp : env.get_formatted_prompt problem = Except.ok prompt)
    (hc : env.get_completion prompt = Except.ok raw)
    (hx : env.extract_code raw = Except.ok ex) :
    ∃ st2, run_task env pset task_id problem st = Except.ok st2
      ∧ st2.results = st.results
          ++ [build_result problem task_id
               (if codegen_psets.contains pset then ex else raw) raw prompt]
      ∧ lookupKey (build_result problem task_id
            (if codegen_psets.contains pset then ex else raw) raw prompt) "completion"
          = some (if codegen_psets.contains pset then ex else raw)
      ∧ lookupKey (build_result problem task_id
            (if codegen_psets.contains pset then ex else raw) raw prompt) "raw_completion"
          = some raw := by
  have hlook1 := build_result_completion problem task_id
    (if codegen_psets.contains pset then ex else raw) raw prompt
  have hlook2 := build_result_raw_completion problem task_id
    (if codegen_psets.contains pset then ex else raw) raw prompt
  cases hcg : codegen_psets.contains pset with
  | true =>
    have heq : run_task env pset task_id problem st
        = Except.ok { st with
            calls := st.calls ++ [task_id]
            results := st.results ++ [build_result problem task_id ex raw prompt]
            file := write_jsonl (st.results
              ++ [build_result problem task_id ex raw prompt]) } := by
      simp [run_task, hp, hc, List.elem_iff.mp hcg, hx]
    refine ⟨_, heq, ?_, ?_, ?_⟩
    · simp [List.elem_iff.mp hcg]
    · simpa [List.elem_iff.mp hcg] using hlook1
    · simpa [List.elem_iff.mp hcg] using hlook2
  | false =>
    have hnmem : pset ∉ codegen_psets := by
      intro hmem
      have h2 : codegen_psets.contains pset = true := List.elem_iff.mpr hmem
      rw [h2] at hcg
      cases hcg
    have heq : run_task env pset task_id problem st
        = Except.ok { st with
            calls := st.calls ++ [task_id]
            results := st.results ++ [build_result problem task_id raw raw prompt]
            file := write_jsonl (st.results
              ++ [build_result problem task_id raw raw prompt]) } := by
      simp [run_task, hp, hc, hnmem]
    refine ⟨_, heq, ?_, ?_, ?_⟩
    · simp [hnmem]
    · simpa [hnmem] using hlook1
    · simpa [hnmem] using hlook2

/-- Witness for C4 at a concrete input: on `human-eval`, the stored
completion is the extractor's output, not the raw provider output. -/
theorem C4_extraction_gating_witness :
    ∃ st2, run_task env_extracts "human-eval" "t1" []
        { results := [], file := some [], calls := [], error_results := [] }
        = Except.ok st2
      ∧ st2.results = ([] : List Obj)
          ++ [build_result [] "t1"
               (if codegen_psets.contains "human-eval" then "code" else "raw output")
               "raw output" "prompt"]
      ∧ lookupKey (build_result [] "t1"
            (if codegen_psets.contains "human-eval" then "code" else "raw output")
            "raw output" "prompt") "completion"
          = some (if codegen_psets.contains "human-eval" then "code" else "raw output")
      ∧ lookupKey (build_result [] "t1"
            (if codegen_psets.contains "human-eval" then "code" else "raw output")
            "raw output" "prompt") "raw_completion"
          = some "raw output" :=
  C4_extraction_gating env_extracts "human-eval" "t1" []
    { results := [], file := some [], calls := [], error_results := [] }
    "prompt" "raw output" "code" rfl rfl rfl

/-! ## Claim C5 -/

/-- C5: Persistence invariant.  Every non-skipped task iteration that
completes rewrites the file with the entire accumulated in-memory sequence
(the file equals the full `results` sequence, never an incremental delta),
and the sequence itself only grows by at most the one new record, appended at
the end. -/
theorem C5_persistence_invariant (env : Env) (pset task_id : String)
    (problem : Obj) (st st2 : RunState)
    (h : run_task env pset task_id problem st = Except.ok st2) :
    st2.file = some st2.results
    ∧ (st2.results = st.results ∨ ∃ r, st2.results = st.results ++ [r]) :=
  ⟨(run_task_ok_shape env pset task_id problem st st2 h).2.2,
   (run_task_ok_shape env pset task_id problem st st2 h).2.1⟩

/-- Witness for C5 at a concrete input. -/
theorem C5_persistence_invariant_witness :
    ∃ st2, run_task env_trivial "human-eval" "t1" []
        { results := [], file := some [], calls := [], error_results := [] }
        = Except.ok st2
      ∧ st2.file = some st2.results
      ∧ (st2.results = [] ∨ ∃ r, st2.results = [] ++ [r]) := by
  have h : run_task env_trivial "human-eval" "t1" []
      { results := [], file := some [], calls := [], error_results := [] }
      = Except.ok { results := [build_result [] "t1" "completion" "completion" "prompt"]
                    file := some [build_result [] "t1" "completion" "completion" "prompt"]
                    calls := ["t1"]
                    error_results := [] } := rfl
  exact ⟨_, h, (C5_persistence_invariant env_trivial "human-eval" "t1" [] _ _ h).1,
    (C5_persistence_invariant env_trivial "human-eval" "t1" [] _ _ h).2⟩

/-! ## Claim C7 -/

/-- C7 counterexample: the claim says that on an empty dataset the output
file is created (or left as loaded); but nothing in the flow creates the
file when the dataset is empty — with no tasks and no pre-existing file the
process exits 0 and the file still does not exist. -/
theorem C7_counterexample :
    (run_main env_trivial "human-eval" [] none).2 = true
    ∧ (run_main env_trivial "human-eval" [] none).1.file = none :=
  ⟨rfl, rfl⟩

/-- C7 (amended): on an empty dataset the run terminates normally with exit
status 0, no provider call is made, no new entry is added, and the output
file is left exactly as loaded — untouched if present and still absent if it
did not exist (it is not created). -/
theorem C7_empty_dataset (env : Env) (pset : String) (file0 : Option (List Obj)) :
    run_main env pset [] file0
      = ({ results := load_existing_jsonl file0, file := file0, calls := []
           error_results := [] }, true) := rfl

/-! ## Claim C9 -/

/-- C9: Loaded records without a `task_id` key contribute nothing to the
skip set — appending such a record to the loaded file leaves
`exising_task_ids` unchanged, so no dataset task is skipped on its account —
yet the record is retained in the in-memory sequence and is present in the
final file's records. -/
theorem C9_records_without_task_id (env : Env) (pset : String)
    (tasks : List (String × Obj)) (L : List Obj) (r : Obj)
    (h : lookupKey r "task_id" = none) :
    exising_task_ids (L ++ [r]) = exising_task_ids L
    ∧ r ∈ (run_main env pset tasks (some (L ++ [r]))).1.results
    ∧ r ∈ fileRecords (run_main env pset tasks (some (L ++ [r]))).1.file := by
  have hmain : run_main env pset tasks (some (L ++ [r]))
      = run_loop env pset (exising_task_ids (L ++ [r])) tasks
          { results := L ++ [r], file := some (L ++ [r]), calls := []
            error_results := [] } := rfl
  obtain ⟨new, hres⟩ := run_loop_results_extend env pset
    (exising_task_ids (L ++ [r])) tasks
    { results := L ++ [r], file := some (L ++ [r]), calls := [], error_results := [] }
  have hfile := run_loop_file_inv env pset (exising_task_ids (L ++ [r])) tasks
    { results := L ++ [r], file := some (L ++ [r]), calls := [], error_results := [] }
    rfl
  refine ⟨?_, ?_, ?_⟩
  · simp [exising_task_ids, List.filterMap_append, h]
  · rw [hmain, hres]
    simp
  · rw [hmain, hfile, hres]
    simp

/-- Witness for C9 at a concrete input: a loaded record `{"note": "x"}` does
not cause any skip and is still present in the final results. -/
theorem C9_records_without_task_id_witness :
    lookupKey [("note", "x")] "task_id" = none
    ∧ exising_task_ids ([] ++ [[("note", "x")]]) = exising_task_ids []
    ∧ [("note", "x")] ∈ (run_main env_trivial "human-eval" [("t1", ([] : Obj))]
        (some ([] ++ [[("note", "x")]]))).1.results :=
  ⟨rfl,
   (C9_records_without_task_id env_trivial "human-eval" [("t1", ([] : Obj))] []
     [("note", "x")] rfl).1,
   (C9_records_without_task_id env_trivial "human-eval" [("t1", ([] : Obj))] []
     [("note", "x")] rfl).2.1⟩

/-! ## Output path derivation (`get_output_path`) -/

/-- Python `str.rstrip(chars)`: removes trailing characters that belong to
the character set `chars` (a character set, not a suffix — the faithful
semantics of the `rstrip(".jsonl")` call in `get_output_path`). -/
def rstrip (s : String) (chars : List Char) : String :=
  ((s.data.reverse.dropWhile (fun c => chars.contains c)).reverse).asString

/-- The character set of the Python literal `".jsonl"` passed to `rstrip`. -/
def jsonl_chars : List Char := ['.', 'j', 's', 'o', 'n', 'l']

/-- Modelled from the spec: the template constant `OUTPUT_FILE_NAME` lives in
`zero_shot_replication.core`, which is not under `src/`.  Per spec §6 the
file name is deterministically derived from provider, pset, model,
temperature, quantization and version, and the output is a `.jsonl` file;
the `format` call in `get_output_path` fills exactly these six fields. -/
def OUTPUT_FILE_NAME_format
    (PROVIDER pset MODEL TEMPERATURE QUANTIZATION VERSION : String) : String :=
  PROVIDER ++ "_" ++ pset ++ "_" ++ MODEL ++ "_" ++ TEMPERATURE ++ "_"
    ++ QUANTIZATION ++ "_" ++ VERSION ++ ".jsonl"

/-- Models `os.path.join` on relative components: join with the `/`
separator. -/
def path_join (a b : String) : String := a ++ "/" ++ b

/-- The CLI arguments `get_output_path` consumes.  `temperature` and
`quantization` carry the strings `str(...)` produces; `output_file_name` is
`none` when the flag is absent, and `some ""` models an empty (falsy)
value. -/
structure Args where
  provider : String
  pset : String
  model : String
  temperature : String
  quantization : String
  py_interpreter : Bool
  output_file_name : Option String

/-- The directory `results/<provider>/<pset>/<model>` under the project
root.  `prep` stands for `prep_for_file_path` (defined in
`zero_shot_replication.core.utils`, not under `src/`), kept abstract. -/
def output_dir_of (prep : String → String) (root : String) (a : Args) : String :=
  path_join (path_join (path_join (path_join root "results")
    (prep a.provider)) (prep a.pset)) (prep a.model)

/-- The derived output file name built in `get_output_path`: the formatted
base name with the character-set `rstrip(".jsonl")` applied, then the
interpreter segment when the flag is set, then the `".jsonl"` extension. -/
def derived_file_name (prep : String → String) (a : Args) (version : String) :
    String :=
  rstrip (OUTPUT_FILE_NAME_format (prep a.provider) (prep a.pset) (prep a.model)
      (prep a.temperature) (prep a.quantization) (prep version)) jsonl_chars
    ++ (if a.py_interpreter then "_py-interpreter" else "") ++ ".jsonl"

/-- `get_output_path` from `runner.py` as a pure value: the list of
directories `os.makedirs` creates (empty when the directory already exists)
together with the returned path.  A falsy `args.output_file_name` (absent or
empty) falls back to the derived name, as in `args.output_file_name or
output_file_name`. -/
def get_output_path (prep : String → String) (root : String) (a : Args)
    (version : String) (dir_exists : Bool) : List String × String :=
  let output_dir := output_dir_of prep root a
  let created := if dir_exists then [] else [output_dir]
  let output_file_name := derived_file_name prep a version
  let chosen :=
    match a.output_file_name with
    | none => output_file_name
    | some n => if n = "" then output_file_name else n
  (created, path_join output_dir chosen)

/-- The interpreter suffix appears in `B ++ segment ++ ".jsonl"` exactly when
the flag turns the segment on, provided the stripped base `B` does not itself
end in `"_py-interpreter"`. -/
theorem interp_suffix_iff (B : String) (flag : Bool)
    (h : ¬ ("_py-interpreter".data <:+ B.data)) :
    flag = true ↔ "_py-interpreter.jsonl".data
      <:+ (B ++ (if flag then "_py-interpreter" else "") ++ ".jsonl").data := by
  cases flag with
  | true =>
    constructor
    · intro _
      refine ⟨B.data, ?_⟩
      show B.data ++ "_py-interpreter.jsonl".data
          = (B.data ++ "_py-interpreter".data) ++ ".jsonl".data
      rw [List.append_assoc]
      congr 1
    · intro _
      rfl
  | false =>
    constructor
    · intro hf
      exact Bool.noConfusion hf
    · intro hsuf
      exfalso
      obtain ⟨u, hu⟩ := hsuf
      apply h
      have hcat : "_py-interpreter".data ++ ".jsonl".data
          = "_py-interpreter.jsonl".data := by decide
      have hr : (B ++ "" ++ ".jsonl").data = B.data ++ ".jsonl".data := by
        show (B.data ++ ([] : List Char)) ++ ".jsonl".data = B.data ++ ".jsonl".data
        rw [List.append_nil]
      have hu2 : (u ++ "_py-interpreter".data) ++ ".jsonl".data
          = B.data ++ ".jsonl".data := by
        rw [List.append_assoc, hcat, hu]
        exact hr
      exact ⟨u, List.append_cancel_right hu2⟩

/-! ## Claim C6 -/

/-- C6: Output path derivation.  `get_output_path` returns a path inside the
directory `results/<provider>/<pset>/<model>` under the project root,
creating that directory exactly when it is absent; when no user file name is
supplied the name is the one derived from provider, pset, model,
temperature, quantization and version, it always ends in `".jsonl"`, and it
carries the `"_py-interpreter"` suffix exactly when the `py_interpreter`
flag is set (given that the stripped base does not itself end in the
segment); a truthy user-supplied `output_file_name` overrides the file name
but not the directory. -/
theorem C6_output_path_derivation (prep : String → String) (root version : String)
    (a : Args) (dir_exists : Bool)
    (h : ¬ ("_py-interpreter".data <:+ (rstrip (OUTPUT_FILE_NAME_format
        (prep a.provider) (prep a.pset) (prep a.model) (prep a.temperature)
        (prep a.quantization) (prep version)) jsonl_chars).data)) :
    (∃ name, (get_output_path prep root a version dir_exists).2
        = path_join (output_dir_of prep root a) name)
    ∧ (get_output_path prep root a version dir_exists).1
        = (if dir_exists then [] else [output_dir_of prep root a])
    ∧ (a.output_file_name = none →
        (get_output_path prep root a version dir_exists).2
          = path_join (output_dir_of prep root a) (derived_file_name prep a version))
    ∧ (".jsonl".data <:+ (derived_file_name prep a version).data)
    ∧ (a.py_interpreter = true ↔
        "_py-interpreter.jsonl".data <:+ (derived_file_name prep a version).data)
    ∧ (∀ n, a.output_file_name = some n → n ≠ "" →
        (get_output_path prep root a version dir_exists).2
          = path_join (output_dir_of prep root a) n) := by
  refine ⟨?_, rfl, ?_, ?_, ?_, ?_⟩
  · cases ho : a.output_file_name with
    | none => exact ⟨derived_file_name prep a version, by simp [get_output_path, ho]⟩
    | some n =>
      by_cases hn : n = ""
      · exact ⟨derived_file_name prep a version, by simp [get_output_path, ho, hn]⟩
      · exact ⟨n, by simp [get_output_path, ho, hn]⟩
  · intro ho
    simp [get_output_path, ho]
  · exact ⟨(rstrip (OUTPUT_FILE_NAME_format (prep a.provider) (prep a.pset)
      (prep a.model) (prep a.temperature) (prep a.quantization) (prep version))
        jsonl_chars
      ++ (if a.py_interpreter then "_py-interpreter" else "")).data, rfl⟩
  · exact interp_suffix_iff _ a.py_interpreter h
  · intro n hn hne
    simp [get_output_path, hn, hne]

/-- Concrete arguments used by the C6 witness. -/
def args_c6 : Args where
  provider := "openai"
  pset := "human-eval"
  model := "gpt-4"
  temperature := "0.7"
  quantization := "none"
  py_interpreter := false
  output_file_name := none

/-- Witness for C6 at a concrete input: hypothesis and two conclusions
evaluated at explicit arguments. -/
theorem C6_output_path_derivation_witness :
    (¬ ("_py-interpreter".data <:+ (rstrip (OUTPUT_FILE_NAME_format
        "openai" "human-eval" "gpt-4" "0.7" "none" "v1") jsonl_chars).data))
    ∧ (get_output_path (fun s => s) "root" args_c6 "v1" false).1
        = [output_dir_of (fun s => s) "root" args_c6]
    ∧ (".jsonl".data <:+ (derived_file_name (fun s => s) args_c6 "v1").data) := by
  have h0 : ¬ ("_py-interpreter".data <:+ (rstrip (OUTPUT_FILE_NAME_format
      "openai" "human-eval" "gpt-4" "0.7" "none" "v1") jsonl_chars).data) := by
    decide
  have h := C6_output_path_derivation (fun s => s) "root" "v1" args_c6 false h0
  exact ⟨h0, h.2.1, h.2.2.2.1⟩

/-! ## `HuggingFaceWizardModel` (wizard_model.py)

Torch and the transformers runtime are external collaborators: CUDA
availability, the tokenizer and the `generate`/`decode` calls are abstract
parameters, and `get_completion` additionally returns the
`GenerationConfig` it builds and the `max_new_tokens` bound it passes to
`generate`, so that theorems can observe them.  The float sampling
parameters carry no arithmetic in the source, so they are modelled as
rationals. -/

/-- The constructed model state: selected device, sampling temperature,
resolved `max_new_tokens`, and flags recording that tokenizer and weights
were loaded during construction. -/
structure HuggingFaceWizardModel where
  device : String
  temperature : Rat
  max_new_tokens : Nat
  tokenizer_loaded : Bool
  model_loaded : Bool

/-- Class constant `MAX_NEW_TOKENS` of `HuggingFaceWizardModel`. -/
def HuggingFaceWizardModel.MAX_NEW_TOKENS : Nat := 384

/-- Class constant `TOP_K` of `HuggingFaceWizardModel`. -/
def HuggingFaceWizardModel.TOP_K : Nat := 40

/-- Class constant `TOP_P` of `HuggingFaceWizardModel` (the literal 0.9). -/
def HuggingFaceWizardModel.TOP_P : Rat := 9 / 10

/-- Class constant `NUM_BEAMS` of `HuggingFaceWizardModel`. -/
def HuggingFaceWizardModel.NUM_BEAMS : Nat := 1

/-- `HuggingFaceWizardModel.__init__`: picks `"cuda"` when
`torch.cuda.is_available()` and `"cpu"` otherwise, loads tokenizer and
weights, and resolves `max_new_tokens or HuggingFaceWizardModel.MAX_NEW_TOKENS`
with Python truthiness (`none` = argument absent/None, `some 0` is falsy
too). -/
def HuggingFaceWizardModel.make (cuda_is_available : Bool) (temperature : Rat)
    (max_new_tokens : Option Nat) : HuggingFaceWizardModel where
  device := if cuda_is_available then "cuda" else "cpu"
  temperature := temperature
  max_new_tokens :=
    match max_new_tokens with
    | none => HuggingFaceWizardModel.MAX_NEW_TOKENS
    | some n => if n = 0 then HuggingFaceWizardModel.MAX_NEW_TOKENS else n
  tokenizer_loaded := true
  model_loaded := true

/-- The `GenerationConfig` assembled inside `get_completion`. -/
structure GenerationConfig where
  temperature : Rat
  top_p : Rat
  top_k : Nat
  num_beams : Nat
  eos_token_id : Nat
  pad_token_id : Nat
  do_sample : Bool

/-- The external tokenizer/runtime collaborators of `get_completion`. -/
structure WizardEnv where
  tokenize : String → List Nat
  eos_token_id : Nat
  pad_token_id : Nat
  generate : List Nat → GenerationConfig → Nat → List Nat
  decode : List Nat → String

/-- `HuggingFaceWizardModel.get_completion`: tokenizes the prompt, builds the
`GenerationConfig` with the constructed temperature and the class sampling
constants, calls `generate` bounded by the resolved `max_new_tokens`, and
decodes.  The config and the bound are returned alongside the text so the
claims can observe them. -/
def HuggingFaceWizardModel.get_completion (m : HuggingFaceWizardModel)
    (env : WizardEnv) (prompt : String) : String × GenerationConfig × Nat :=
  let input_ids := env.tokenize prompt
  let generation_config : GenerationConfig :=
    { temperature := m.temperature
      top_p := HuggingFaceWizardModel.TOP_P
      top_k := HuggingFaceWizardModel.TOP_K
      num_beams := HuggingFaceWizardModel.NUM_BEAMS
      eos_token_id := env.eos_token_id
      pad_token_id := env.pad_token_id
      do_sample := true }
  let output := env.generate input_ids generation_config m.max_new_tokens
  (env.decode output, generation_config, m.max_new_tokens)

/-! ## Claim C8 -/

/-- C8: Local-model decoding configuration.  Construction selects `"cuda"`
exactly when an accelerator is available and `"cpu"` otherwise and loads
tokenizer and weights; every `get_completion` call generates with the
temperature fixed at construction, `top_p = 9/10`, `top_k = 40`,
`num_beams = 1`, sampling enabled, and `max_new_tokens` equal to the
(truthy) constructor argument or the class default 384. -/
theorem C8_wizard_decoding_config (cuda : Bool) (temp : Rat)
    (mnt : Option Nat) (env : WizardEnv) (prompt : String) :
    (HuggingFaceWizardModel.make cuda temp mnt).device
        = (if cuda then "cuda" else "cpu")
    ∧ (HuggingFaceWizardModel.make cuda temp mnt).tokenizer_loaded = true
    ∧ (HuggingFaceWizardModel.make cuda temp mnt).model_loaded = true
    ∧ ((HuggingFaceWizardModel.make cuda temp mnt).get_completion env
        prompt).2.1.temperature = temp
    ∧ ((HuggingFaceWizardModel.make cuda temp mnt).get_completion env
        prompt).2.1.top_p = 9 / 10
    ∧ ((HuggingFaceWizardModel.make cuda temp mnt).get_completion env
        prompt).2.1.top_k = 40
    ∧ ((HuggingFaceWizardModel.make cuda temp mnt).get_completion env
        prompt).2.1.num_beams = 1
    ∧ ((HuggingFaceWizardModel.make cuda temp mnt).get_completion env
        prompt).2.1.do_sample = true
    ∧ ((HuggingFaceWizardModel.make cuda temp mnt).get_completion env
        prompt).2.2 = (HuggingFaceWizardModel.make cuda temp mnt).max_new_tokens
    ∧ ((∃ n, mnt = some n ∧ n ≠ 0
          ∧ (HuggingFaceWizardModel.make cuda temp mnt).max_new_tokens = n)
        ∨ (HuggingFaceWizardModel.make cuda temp mnt).max_new_tokens = 384) := by
  refine ⟨rfl, rfl, rfl, rfl, rfl, rfl, rfl, rfl, rfl, ?_⟩
  match mnt with
  | none => exact Or.inr rfl
  | some n =>
    by_cases hn : n = 0
    · subst hn
      exact Or.inr rfl
    · exact Or.inl ⟨n, rfl, hn, by simp [HuggingFaceWizardModel.make, hn]⟩

/-! ## Claim C10 -/

/-- C10: A falsy `max_new_tokens` constructor argument (absent/None, or 0)
resolves to the class default 384 because of the boolean-or default; only a
nonzero argument is honored. -/
theorem C10_falsy_max_new_tokens (cuda : Bool) (temp : Rat) :
    (HuggingFaceWizardModel.make cuda temp none).max_new_tokens = 384
    ∧ (HuggingFaceWizardModel.make cuda temp (some 0)).max_new_tokens = 384
    ∧ (∀ n : Nat, n ≠ 0 →
        (HuggingFaceWizardModel.make cuda temp (some n)).max_new_tokens = n) := by
  refine ⟨rfl, rfl, ?_⟩
  intro n hn
  simp [HuggingFaceWizardModel.make, hn]

/-- Witness for C10 at concrete inputs. -/
theorem C10_falsy_max_new_tokens_witness :
    (HuggingFaceWizardModel.make true 1 none).max_new_tokens = 384
    ∧ (HuggingFaceWizardModel.make true 1 (some 0)).max_new_tokens = 384
    ∧ (HuggingFaceWizardModel.make true 1 (some 5)).max_new_tokens = 5 :=
  ⟨(C10_falsy_max_new_tokens true 1).1,
   (C10_falsy_max_new_tokens true 1).2.1,
   (C10_falsy_max_new_tokens true 1).2.2 5 (by decide)⟩
